import Mathlib

/-!
Verification of the lightweight service registry and invocation dispatcher
(`RuntimeProtocolGenerator` and `LightweightServer`).

The embedding mirrors the TypeScript source:
- `RuntimeProtocolGenerator` (registration, validation, codec) becomes pure
  functions over an explicit `GenState`; JavaScript objects used as string
  maps become association lists with first-match lookup, which has the same
  observable semantics because the source only ever writes a key it has
  checked to be absent.
- `LightweightServer.handleApiCall` and `handleMsgCall` become functions from
  the observable behavior of the configured validators, hooks and handlers
  (data describing whether they call their continuation and how they
  terminate) to the produced result envelope plus an instrumentation trace
  recording which stages ran and how often the handler was invoked.
- JavaScript exceptions are modelled by `Thrown`: a `LightweightError`
  instance carrying `message`, `code`, `type`; any other thrown value with an
  optional `message` property; or `null`/`undefined`, on which a property
  access itself raises a `TypeError`.
- An `async` hook or handler can only reject its promise, while a plain
  function can also throw synchronously, before any promise exists.  The two
  are indistinguishable at `await` sites but differ at the two detached call
  sites (`Promise.resolve(hook(...)).catch(log)` and the message fan-out
  `handlers.map(h => Promise.resolve(h(...)).catch(log))`), so hook and
  message handler exits keep the distinction.
-/

/-! ## JavaScript values and exceptions -/

/-- The error payload of a failure envelope: `{message, code, type}`. -/
structure ErrObj where
  message : String
  code : String
  type : String
deriving DecidableEq, Repr

/-- `LightweightApiReturn`: `{isSucc:true, res}` or `{isSucc:false, err}`. -/
inductive Envelope (σ : Type) where
  | succ (res : σ)
  | fail (err : ErrObj)
deriving DecidableEq, Repr

/-- A thrown JavaScript value, as the `catch (error: any)` block can see it:
a `LightweightError` instance (an `Error` subclass carrying `code` and
`type`), any other value together with its `message` property when it has
one, or `null`/`undefined`, on which reading `.message` throws. -/
inductive Thrown where
  | lwErr (message : String) (code : String) (type : String)
  | plain (message : Option String)
  | nullish
deriving DecidableEq, Repr

/-- A crash escaping the dispatcher: the `TypeError` raised by reading
`error.message` when the caught value is `null` or `undefined`. -/
inductive JsCrash where
  | typeError
deriving DecidableEq, Repr

/-- Models the JavaScript expression `m || fallback` on an optional string
property: an absent property (`undefined`) and the empty string are both
falsy, so either selects the fallback. -/
def jsStringOr (m : Option String) (fallback : String) : String :=
  match m with
  | some s => if s = "" then fallback else s
  | none => fallback

/-! ## Codec (`RuntimeProtocolGenerator.serialize` / `deserialize`)

`JSON.stringify`, `JSON.parse`, `TextEncoder.encode` and `TextDecoder.decode`
are platform builtins, not code of this repository, so the codec is
parametrized by them; the round-trip theorem assumes exactly the properties
the JavaScript platform guarantees for JSON-representable values, namely
that `parse` inverts `stringify` and `decode` inverts `encode`. -/

/-- The `serializationMode` option: `"json" | "binary" | "auto"`. -/
inductive SerMode where
  | json
  | binary
  | auto
deriving DecidableEq, Repr

/-- The value returned by `serialize`: `string | Uint8Array`.  The byte type
is abstract because only the encoder and decoder inspect it. -/
inductive Wire (β : Type) where
  | text (s : String)
  | bytes (b : β)
deriving DecidableEq, Repr

/-- `RuntimeProtocolGenerator.serialize`: in `auto` mode measure the JSON
text and choose `binary` above 1024 units, else `json`; then emit the JSON
text directly (`json`) or encode it to bytes (`binary`). -/
def serialize {α β : Type} (stringify : α → String) (encode : String → β)
    (data : α) (mode : SerMode) : Wire β :=
  let t := if mode = SerMode.auto then
      (if (stringify data).length > 1024 then SerMode.binary else SerMode.json)
    else mode
  if t = SerMode.json then Wire.text (stringify data)
  else Wire.bytes (encode (stringify data))

/-- `RuntimeProtocolGenerator.deserialize`: a string is parsed directly; a
byte sequence is decoded to text first.  `JSON.parse` can throw on malformed
text, hence the `Option`. -/
def deserialize {α β : Type} (parse : String → Option α) (decode : β → String) :
    Wire β → Option α
  | Wire.text s => parse s
  | Wire.bytes b => parse (decode b)

/-! ## Service registry (`RuntimeProtocolGenerator`) -/

/-- First-match lookup in an association list, the semantics of reading a
property of a plain JavaScript object used as a map (the source never
overwrites an existing key, so first match and last write agree). -/
def alookup {α β : Type} [DecidableEq α] : List (α × β) → α → Option β
  | [], _ => none
  | (k, v) :: rest, a => if a = k then some v else alookup rest a

/-- A per-API validator pair, direction-scoped: `{req?, res?}`. -/
structure ApiVal (π : Type) where
  req : Option (π → Bool)
  res : Option (π → Bool)

/-- One entry of the `customValidators` option: `{req?, res?}` — the option
shape offers no slot for a message-direction validator. -/
structure CustomVal (π : Type) where
  req : Option (π → Bool)
  res : Option (π → Bool)

/-- `LightweightProtocolOptions`, with every field defaulted as in the
constructor of `RuntimeProtocolGenerator`. -/
structure GenOptions (π : Type) where
  enableValidation : Bool
  debug : Bool
  serializationMode : SerMode
  customValidators : List (String × CustomVal π)

/-- The mutable state of a `RuntimeProtocolGenerator`: the `serviceMap`
(name/id maps in both directions plus the shared `nextId` counter) and the
`protocol` bookkeeping (name lists and registered validators). -/
structure GenState (π : Type) where
  apiName2Id : List (String × Nat)
  id2ApiName : List (Nat × String)
  msgName2Id : List (String × Nat)
  id2MsgName : List (Nat × String)
  nextId : Nat
  apiNames : List String
  msgNames : List String
  apiValidators : List (String × ApiVal π)
  msgValidators : List (String × (π → Bool))

/-- The state built by the constructor: empty maps, counter at zero. -/
def GenState.initial (π : Type) : GenState π :=
  ⟨[], [], [], [], 0, [], [], [], []⟩

/-- `RuntimeProtocolGenerator.registerApi`: return the existing id untouched
when the name is known; otherwise assign `nextId`, advance the counter,
extend both direction maps, append to `apiNames` when absent, and store the
validator only when one was given and validation is enabled. -/
def registerApi {π : Type} (opts : GenOptions π) (st : GenState π)
    (name : String) (validator : Option (ApiVal π)) : Nat × GenState π :=
  match alookup st.apiName2Id name with
  | some i => (i, st)
  | none =>
    let serviceId := st.nextId
    let st1 := { st with
      nextId := st.nextId + 1
      apiName2Id := (name, serviceId) :: st.apiName2Id
      id2ApiName := (serviceId, name) :: st.id2ApiName }
    let st2 := if st1.apiNames.contains name then st1
      else { st1 with apiNames := st1.apiNames ++ [name] }
    let st3 := match validator with
      | some v => if opts.enableValidation then
          { st2 with apiValidators := (name, v) :: st2.apiValidators }
        else st2
      | none => st2
    (serviceId, st3)

/-- `RuntimeProtocolGenerator.registerMsg`: same shape as `registerApi`, on
the message namespace, drawing from the same `nextId` counter. -/
def registerMsg {π : Type} (opts : GenOptions π) (st : GenState π)
    (name : String) (validator : Option (π → Bool)) : Nat × GenState π :=
  match alookup st.msgName2Id name with
  | some i => (i, st)
  | none =>
    let serviceId := st.nextId
    let st1 := { st with
      nextId := st.nextId + 1
      msgName2Id := (name, serviceId) :: st.msgName2Id
      id2MsgName := (serviceId, name) :: st.id2MsgName }
    let st2 := if st1.msgNames.contains name then st1
      else { st1 with msgNames := st1.msgNames ++ [name] }
    let st3 := match validator with
      | some v => if opts.enableValidation then
          { st2 with msgValidators := (name, v) :: st2.msgValidators }
        else st2
      | none => st2
    (serviceId, st3)

/-- The two service namespaces. -/
inductive SvcKind where
  | api
  | msg
deriving DecidableEq, Repr

/-- `RuntimeProtocolGenerator.getServiceId`. -/
def getServiceId {π : Type} (st : GenState π) (name : String) : SvcKind → Option Nat
  | SvcKind.api => alookup st.apiName2Id name
  | SvcKind.msg => alookup st.msgName2Id name

/-- `RuntimeProtocolGenerator.getServiceName`. -/
def getServiceName {π : Type} (st : GenState π) (id : Nat) : SvcKind → Option String
  | SvcKind.api => alookup st.id2ApiName id
  | SvcKind.msg => alookup st.id2MsgName id

/-- `RuntimeProtocolGenerator.validateRequest`: globally disabled validation
accepts; else the registered request validator decides; else the custom
request validator for the name decides; else accept. -/
def validateRequest {π : Type} (opts : GenOptions π) (st : GenState π)
    (name : String) (data : π) : Bool :=
  if !opts.enableValidation then true
  else
    match (alookup st.apiValidators name).bind ApiVal.req with
    | some v => v data
    | none =>
      match (alookup opts.customValidators name).bind CustomVal.req with
      | some c => c data
      | none => true

/-- `RuntimeProtocolGenerator.validateResponse`: as `validateRequest`, on the
response direction. -/
def validateResponse {π : Type} (opts : GenOptions π) (st : GenState π)
    (name : String) (data : π) : Bool :=
  if !opts.enableValidation then true
  else
    match (alookup st.apiValidators name).bind ApiVal.res with
    | some v => v data
    | none =>
      match (alookup opts.customValidators name).bind CustomVal.res with
      | some c => c data
      | none => true

/-- `RuntimeProtocolGenerator.validateMessage`: globally disabled validation
accepts; else the registered message validator decides; else accept.  The
source consults no custom validator here, and indeed the `customValidators`
option shape has no message-direction slot. -/
def validateMessage {π : Type} (opts : GenOptions π) (st : GenState π)
    (name : String) (data : π) : Bool :=
  if !opts.enableValidation then true
  else
    match alookup st.msgValidators name with
    | some v => v data
    | none => true

/-! ## Invocation dispatcher (`LightweightServer.handleApiCall`)

Hooks are invoked as `await hook(payload, context, next)` where `next` is
`async () => { shouldContinue = true }`.  A hook run is therefore observable
as: did it invoke `next` before settling, and how did it terminate — normal
return, synchronous throw (possible for a plain, non-`async` middleware,
whose declared type is `=> Promise<void> | void`), or rejected promise.  At
an awaited site the two throw forms behave identically; at the detached
`postApiCall` site only the rejected promise is routed into the logging
`.catch`, while a synchronous throw happens while evaluating the argument of
`Promise.resolve` and so propagates to the surrounding `try`. -/

/-- How a hook or message handler terminates. -/
inductive HookExit where
  | ret
  | syncThrow (v : Thrown)
  | asyncThrow (v : Thrown)
deriving DecidableEq, Repr

/-- The observable behavior of one bound hook: whether it invoked its
continuation before settling, and how it terminated. -/
structure HookBehavior where
  callsNext : Bool
  exit : HookExit
deriving DecidableEq, Repr

/-- The outcome of awaiting the API handler: a return value, or a thrown
value (synchronous throw and promise rejection coincide under `await`). -/
inductive HandlerOutcome (σ : Type) where
  | ret (v : σ)
  | throws (v : Thrown)
deriving DecidableEq, Repr

/-- The three API lifecycle hooks `handleApiCall` consults; `none` models an
unbound flow point. -/
structure ApiFlows where
  preApiCall : Option HookBehavior
  preApiReturn : Option HookBehavior
  postApiCall : Option HookBehavior
deriving DecidableEq, Repr

/-- Everything `handleApiCall` consults for one API name: the registry
validators for both directions (which propagate an exception thrown by a
user-supplied validator), the bound flows, and the optionally registered
handler.  `ρ` is the request type, `σ` the response type. -/
structure ApiEnv (ρ σ : Type) where
  validateReq : ρ → Except Thrown Bool
  validateRes : σ → Except Thrown Bool
  flows : ApiFlows
  handler : Option (ρ → HandlerOutcome σ)

/-- Instrumentation recording which stages of one `handleApiCall` ran. -/
structure ApiTrace where
  handlerCalls : Nat
  preApiCallRan : Bool
  reachedHandlerLookup : Bool
  preApiReturnRan : Bool
  postApiCallRan : Bool
  postHookErrorLogged : Bool
deriving DecidableEq, Repr

/-- The trace at entry of `handleApiCall`. -/
def ApiTrace.start : ApiTrace := ⟨0, false, false, false, false, false⟩

/-- The result of one `handleApiCall`: an envelope, or a crash escaping the
dispatcher. -/
abbrev ApiOutcome (σ : Type) := Except JsCrash (Envelope σ)

/-- The `catch (error: any)` block of `handleApiCall`: a `LightweightError`
passes its fields through; any other caught value is wrapped as
`INTERNAL_ERROR`/`ServerError` with `error.message || "Internal server
error"` — except that reading `.message` on a caught `null`/`undefined`
itself raises a `TypeError`, which escapes. -/
def catchClause {σ : Type} : Thrown → ApiOutcome σ
  | Thrown.lwErr m c t => Except.ok (Envelope.fail ⟨m, c, t⟩)
  | Thrown.plain m =>
      Except.ok (Envelope.fail
        ⟨jsStringOr m "Internal server error", "INTERNAL_ERROR", "ServerError"⟩)
  | Thrown.nullish => Except.error JsCrash.typeError

/-- Stage `PostFlow` of `handleApiCall`: the `postApiCall` hook runs under
`Promise.resolve(...).catch(log)`, reached only with a finalized success
result.  A rejected promise is logged and ignored; a synchronous throw
escapes to the surrounding `try` and is routed through the catch block. -/
def postFlowStage {σ : Type} (res : σ) (post : Option HookBehavior)
    (tr : ApiTrace) : ApiOutcome σ × ApiTrace :=
  match post with
  | none => (Except.ok (Envelope.succ res), tr)
  | some hb =>
    let tr1 := { tr with postApiCallRan := true }
    match hb.exit with
    | HookExit.syncThrow v => (catchClause v, tr1)
    | HookExit.asyncThrow _ =>
        (Except.ok (Envelope.succ res), { tr1 with postHookErrorLogged := true })
    | HookExit.ret => (Except.ok (Envelope.succ res), tr1)

/-- Stage `preApiReturn` of `handleApiCall`: awaited; a hook that settles
without invoking its continuation aborts with `FLOW_CANCELED`, a throwing
hook reaches the catch block, and otherwise control moves to `PostFlow`. -/
def preReturnStage {σ : Type} (res : σ) (flows : ApiFlows)
    (tr : ApiTrace) : ApiOutcome σ × ApiTrace :=
  match flows.preApiReturn with
  | none => postFlowStage res flows.postApiCall tr
  | some hb =>
    let tr1 := { tr with preApiReturnRan := true }
    match hb.exit with
    | HookExit.syncThrow v | HookExit.asyncThrow v => (catchClause v, tr1)
    | HookExit.ret =>
      if hb.callsNext then postFlowStage res flows.postApiCall tr1
      else
        (Except.ok (Envelope.fail
          ⟨"API return canceled by preApiReturn flow", "FLOW_CANCELED", "ServerError"⟩), tr1)

/-- Stage `ValidatingResponse` of `handleApiCall`. -/
def validateResStage {ρ σ : Type} (apiName : String) (env : ApiEnv ρ σ)
    (res : σ) (tr : ApiTrace) : ApiOutcome σ × ApiTrace :=
  match env.validateRes res with
  | Except.error v => (catchClause v, tr)
  | Except.ok false =>
      (Except.ok (Envelope.fail
        ⟨"Invalid response data for API: " ++ apiName, "INVALID_RESPONSE", "ServerError"⟩), tr)
  | Except.ok true => preReturnStage res env.flows tr

/-- Stage `Invoking` of `handleApiCall`: locate the handler, fail with
`HANDLER_NOT_FOUND` when absent, else await it and continue with its value;
a throw reaches the catch block. -/
def invokeStage {ρ σ : Type} (apiName : String) (env : ApiEnv ρ σ)
    (req : ρ) (tr : ApiTrace) : ApiOutcome σ × ApiTrace :=
  let tr1 := { tr with reachedHandlerLookup := true }
  match env.handler with
  | none =>
      (Except.ok (Envelope.fail
        ⟨"No handler found for API: " ++ apiName, "HANDLER_NOT_FOUND", "ServerError"⟩), tr1)
  | some f =>
    let tr2 := { tr1 with handlerCalls := tr1.handlerCalls + 1 }
    match f req with
    | HandlerOutcome.throws v => (catchClause v, tr2)
    | HandlerOutcome.ret res => validateResStage apiName env res tr2

/-- Stage `PreFlow` of `handleApiCall`: the awaited `preApiCall` hook; a hook
that settles without invoking its continuation aborts with `FLOW_CANCELED`
before any handler lookup. -/
def preFlowStage {ρ σ : Type} (apiName : String) (env : ApiEnv ρ σ)
    (req : ρ) (tr : ApiTrace) : ApiOutcome σ × ApiTrace :=
  match env.flows.preApiCall with
  | none => invokeStage apiName env req tr
  | some hb =>
    let tr1 := { tr with preApiCallRan := true }
    match hb.exit with
    | HookExit.syncThrow v | HookExit.asyncThrow v => (catchClause v, tr1)
    | HookExit.ret =>
      if hb.callsNext then invokeStage apiName env req tr1
      else
        (Except.ok (Envelope.fail
          ⟨"API call canceled by preApiCall flow", "FLOW_CANCELED", "ServerError"⟩), tr1)

/-- `LightweightServer.handleApiCall`: request validation, `preApiCall`
flow, handler lookup and invocation, response validation, `preApiReturn`
flow, detached `postApiCall` flow, all under one `try` whose catch block is
`catchClause`. -/
def handleApiCall {ρ σ : Type} (apiName : String) (env : ApiEnv ρ σ)
    (req : ρ) : ApiOutcome σ × ApiTrace :=
  match env.validateReq req with
  | Except.error v => (catchClause v, ApiTrace.start)
  | Except.ok false =>
      (Except.ok (Envelope.fail
        ⟨"Invalid request data for API: " ++ apiName, "INVALID_REQUEST", "ClientError"⟩),
       ApiTrace.start)
  | Except.ok true => preFlowStage apiName env req ApiTrace.start

/-! ## Message dispatcher (`LightweightServer.handleMsgCall`) -/

/-- What became of one bound message handler during a dispatch. -/
inductive HandlerFate where
  | notInvoked
  | awaitedOk
  | awaitedLogged
  | invokedNotAwaited
  | syncThrew
deriving DecidableEq, Repr

/-- Does some element of the list throw synchronously? -/
def hasSyncThrow : List HookExit → Bool
  | [] => false
  | HookExit.syncThrow _ :: _ => true
  | _ :: rest => hasSyncThrow rest

/-- The fan-out `handlers.map(h => Promise.resolve(h(msg, ctx)).catch(log))`
followed by `await Promise.all(...)`.  `map` runs the handlers in order; the
first synchronous throw aborts it, so later handlers are never invoked and
the promises already created are never awaited (their rejections are still
logged by the `.catch` attached to each).  Without a synchronous throw every
handler is invoked and awaited, each rejection caught and logged on its
own. -/
def msgFanout : List HookExit → List HandlerFate
  | [] => []
  | e :: rest =>
    match e with
    | HookExit.syncThrow _ => HandlerFate.syncThrew :: rest.map (fun _ => HandlerFate.notInvoked)
    | HookExit.ret =>
        (if hasSyncThrow rest then HandlerFate.invokedNotAwaited else HandlerFate.awaitedOk)
          :: msgFanout rest
    | HookExit.asyncThrow _ =>
        (if hasSyncThrow rest then HandlerFate.invokedNotAwaited else HandlerFate.awaitedLogged)
          :: msgFanout rest

/-- Everything `handleMsgCall` consults for one message name.  A message
handler returns `void`, so its observable behavior is just its exit; `next`
exists only for the `preMsgReceive` hook. -/
structure MsgEnv (μ : Type) where
  validateMsg : μ → Except Thrown Bool
  preMsgReceive : Option HookBehavior
  handlers : List (μ → HookExit)

/-- The observable outcome of one `handleMsgCall`.  The function itself
always resolves to `void`: its catch block only logs the caught value (no
property access), so nothing reaches the sender. -/
structure MsgTrace where
  fates : List HandlerFate
  invalidLogged : Bool
  canceledByPreFlow : Bool
  noHandlerWarned : Bool
  outerErrorLogged : Bool
deriving DecidableEq, Repr

/-- The trace of a dispatch that never reached the fan-out. -/
def MsgTrace.start (handlerCount : Nat) : MsgTrace :=
  ⟨List.replicate handlerCount HandlerFate.notInvoked, false, false, false, false⟩

/-- The fan-out stage of `handleMsgCall`: warn and return when no handler is
bound, else run the fan-out; a synchronous throw is caught by the outer
`catch` and logged. -/
def msgFanoutStage {μ : Type} (env : MsgEnv μ) (msg : μ) : MsgTrace :=
  if env.handlers.isEmpty then
    { MsgTrace.start env.handlers.length with noHandlerWarned := true }
  else
    let es := env.handlers.map (fun h => h msg)
    ⟨msgFanout es, false, false, false, hasSyncThrow es⟩

/-- `LightweightServer.handleMsgCall`: message validation (a failure is
logged and the dispatch ends silently), the awaited `preMsgReceive` hook
(declining its continuation cancels silently), then the parallel fan-out to
every bound handler.  All failures end in logs; none reaches the sender. -/
def handleMsgCall {μ : Type} (env : MsgEnv μ) (msg : μ) : MsgTrace :=
  let n := env.handlers.length
  match env.validateMsg msg with
  | Except.error _ => { MsgTrace.start n with outerErrorLogged := true }
  | Except.ok false => { MsgTrace.start n with invalidLogged := true }
  | Except.ok true =>
    match env.preMsgReceive with
    | none => msgFanoutStage env msg
    | some hb =>
      match hb.exit with
      | HookExit.syncThrow _ | HookExit.asyncThrow _ =>
          { MsgTrace.start n with outerErrorLogged := true }
      | HookExit.ret =>
        if hb.callsNext then msgFanoutStage env msg
        else { MsgTrace.start n with canceledByPreFlow := true }

/-! ## Auxiliary predicates and spec-side definitions -/

/-- Written from the words of the validation-fallback claim, for comparison
with the source functions: (1) globally disabled validation accepts
everything; (2) else an explicit validator registered for the service and
direction decides; (3) else a caller-supplied custom validator for the name
and direction decides; (4) else accept. -/
def specFallbackVerdict {π : Type} (enabled : Bool)
    (explicitVal customVal : Option (π → Bool)) (data : π) : Bool :=
  if !enabled then true
  else
    match explicitVal with
    | some v => v data
    | none =>
      match customVal with
      | some c => c data
      | none => true

/-- One registration call issued by client code. -/
inductive RegOp (π : Type) where
  | api (name : String) (validator : Option (ApiVal π))
  | msg (name : String) (validator : Option (π → Bool))

/-- The state after one registration call. -/
def applyRegOp {π : Type} (opts : GenOptions π) (st : GenState π) :
    RegOp π → GenState π
  | RegOp.api n v => (registerApi opts st n v).2
  | RegOp.msg n v => (registerMsg opts st n v).2

/-- The state after a sequence of registration calls. -/
def runRegOps {π : Type} (opts : GenOptions π) :
    List (RegOp π) → GenState π → GenState π
  | [], st => st
  | op :: rest, st => runRegOps opts rest (applyRegOp opts st op)

/-- Registry sanity: every assigned id is below the counter, each namespace
maps ids back to names injectively, and the two namespaces share no id. -/
def WFState {π : Type} (st : GenState π) : Prop :=
  (∀ n i, alookup st.apiName2Id n = some i → i < st.nextId) ∧
  (∀ n i, alookup st.msgName2Id n = some i → i < st.nextId) ∧
  (∀ n₁ n₂ i, alookup st.apiName2Id n₁ = some i →
    alookup st.apiName2Id n₂ = some i → n₁ = n₂) ∧
  (∀ n₁ n₂ i, alookup st.msgName2Id n₁ = some i →
    alookup st.msgName2Id n₂ = some i → n₁ = n₂) ∧
  (∀ n₁ n₂ i, alookup st.apiName2Id n₁ = some i →
    alookup st.msgName2Id n₂ = some i → False)

/-- The bound hook, if any, settles normally after invoking its
continuation, letting the pipeline proceed. -/
def HookAllows : Option HookBehavior → Prop
  | none => True
  | some hb => hb.exit = HookExit.ret ∧ hb.callsNext = true

/-- The bound hook, if any, never throws a `null`/`undefined` value. -/
def HookNoNullish : Option HookBehavior → Prop
  | none => True
  | some hb => hb.exit ≠ HookExit.syncThrow Thrown.nullish ∧
      hb.exit ≠ HookExit.asyncThrow Thrown.nullish

/-- No validator, hook or handler of the environment ever throws the value
`null` or `undefined` (throwing anything else stays allowed). -/
def NoNullishEnv {ρ σ : Type} (env : ApiEnv ρ σ) : Prop :=
  (∀ r, env.validateReq r ≠ Except.error Thrown.nullish) ∧
  (∀ s, env.validateRes s ≠ Except.error Thrown.nullish) ∧
  HookNoNullish env.flows.preApiCall ∧
  HookNoNullish env.flows.preApiReturn ∧
  HookNoNullish env.flows.postApiCall ∧
  (∀ f, env.handler = some f → ∀ r, f r ≠ HandlerOutcome.throws Thrown.nullish)

/-! ## Concrete environments for witnesses and counterexamples -/

/-- Default options over a unit payload type. -/
def wOpts : GenOptions Unit := ⟨true, false, SerMode.auto, []⟩

/-- A plain succeeding setup: permissive validators, no hooks, a handler
returning `30` (the `math/add` scenario with `{a:10, b:20}`). -/
def envTotal : ApiEnv Unit Nat :=
  ⟨fun _ => Except.ok true, fun _ => Except.ok true, ⟨none, none, none⟩,
   some (fun _ => HandlerOutcome.ret 30)⟩

/-- A handler that throws `null`. -/
def envNullish : ApiEnv Unit Unit :=
  ⟨fun _ => Except.ok true, fun _ => Except.ok true, ⟨none, none, none⟩,
   some (fun _ => HandlerOutcome.throws Thrown.nullish)⟩

/-- A handler that throws `Error("boom")`. -/
def envBoom : ApiEnv Unit Unit :=
  ⟨fun _ => Except.ok true, fun _ => Except.ok true, ⟨none, none, none⟩,
   some (fun _ => HandlerOutcome.throws (Thrown.plain (some "boom")))⟩

/-- A handler that throws `Error("")`, an error whose `message` property is
the empty string. -/
def envEmptyMsg : ApiEnv Unit Unit :=
  ⟨fun _ => Except.ok true, fun _ => Except.ok true, ⟨none, none, none⟩,
   some (fun _ => HandlerOutcome.throws (Thrown.plain (some "")))⟩

/-- A rejecting request validator in front of a counting handler. -/
def envRejectReq : ApiEnv Unit Nat :=
  ⟨fun _ => Except.ok false, fun _ => Except.ok true,
   ⟨some ⟨true, HookExit.ret⟩, none, none⟩,
   some (fun _ => HandlerOutcome.ret 30)⟩

/-- A `preApiCall` hook that settles without invoking its continuation. -/
def envPreCancel : ApiEnv Unit Nat :=
  ⟨fun _ => Except.ok true, fun _ => Except.ok true,
   ⟨some ⟨false, HookExit.ret⟩, none, none⟩,
   some (fun _ => HandlerOutcome.ret 30)⟩

/-- A `preApiCall` hook that invokes its continuation and settles. -/
def envPreAllow : ApiEnv Unit Nat :=
  ⟨fun _ => Except.ok true, fun _ => Except.ok true,
   ⟨some ⟨true, HookExit.ret⟩, none, none⟩,
   some (fun _ => HandlerOutcome.ret 30)⟩

/-- A `preApiReturn` hook that settles without invoking its continuation,
behind a succeeding handler and passing response validation. -/
def envPreReturnCancel : ApiEnv Unit Nat :=
  ⟨fun _ => Except.ok true, fun _ => Except.ok true,
   ⟨none, some ⟨false, HookExit.ret⟩, none⟩,
   some (fun _ => HandlerOutcome.ret 30)⟩

/-- A `postApiCall` hook whose promise rejects (an `async` hook that
throws). -/
def envPostAsync : ApiEnv Unit Nat :=
  ⟨fun _ => Except.ok true, fun _ => Except.ok true,
   ⟨none, none, some ⟨false, HookExit.asyncThrow (Thrown.plain (some "late"))⟩⟩,
   some (fun _ => HandlerOutcome.ret 30)⟩

/-- A plain (non-`async`) `postApiCall` hook that throws synchronously. -/
def envPostSync : ApiEnv Unit Nat :=
  ⟨fun _ => Except.ok true, fun _ => Except.ok true,
   ⟨none, none, some ⟨false, HookExit.syncThrow (Thrown.plain (some "kaboom"))⟩⟩,
   some (fun _ => HandlerOutcome.ret 30)⟩

/-- Two message handlers: the first rejects asynchronously, the second
settles fine. -/
def envMsgIso : MsgEnv Unit :=
  ⟨fun _ => Except.ok true, none,
   [fun _ => HookExit.asyncThrow (Thrown.plain (some "h1 boom")),
    fun _ => HookExit.ret]⟩

/-- Two message handlers: the first throws synchronously, the second would
settle fine. -/
def envMsgSync : MsgEnv Unit :=
  ⟨fun _ => Except.ok true, none,
   [fun _ => HookExit.syncThrow (Thrown.plain (some "h1 boom")),
    fun _ => HookExit.ret]⟩

/-! ## Stage lemmas -/

theorem postFlowStage_calls {σ : Type} (res : σ) (post : Option HookBehavior)
    (tr : ApiTrace) : ((postFlowStage res post tr).2).handlerCalls = tr.handlerCalls := by
  rcases post with _ | ⟨cn, ex⟩
  · rfl
  · rcases ex <;> rfl

theorem postFlowStage_reached {σ : Type} (res : σ) (post : Option HookBehavior)
    (tr : ApiTrace) :
    ((postFlowStage res post tr).2).reachedHandlerLookup = tr.reachedHandlerLookup := by
  rcases post with _ | ⟨cn, ex⟩
  · rfl
  · rcases ex <;> rfl

theorem preReturnStage_calls {σ : Type} (res : σ) (flows : ApiFlows)
    (tr : ApiTrace) : ((preReturnStage res flows tr).2).handlerCalls = tr.handlerCalls := by
  rcases flows with ⟨pc, pr, po⟩
  rcases pr with _ | ⟨cn, ex⟩
  · exact postFlowStage_calls res po tr
  · rcases ex with _ | v | v
    · rcases cn
      · rfl
      · exact postFlowStage_calls res po _
    · rfl
    · rfl

theorem preReturnStage_reached {σ : Type} (res : σ) (flows : ApiFlows)
    (tr : ApiTrace) :
    ((preReturnStage res flows tr).2).reachedHandlerLookup = tr.reachedHandlerLookup := by
  rcases flows with ⟨pc, pr, po⟩
  rcases pr with _ | ⟨cn, ex⟩
  · exact postFlowStage_reached res po tr
  · rcases ex with _ | v | v
    · rcases cn
      · rfl
      · exact postFlowStage_reached res po _
    · rfl
    · rfl

theorem validateResStage_calls {ρ σ : Type} (apiName : String) (env : ApiEnv ρ σ)
    (res : σ) (tr : ApiTrace) :
    ((validateResStage apiName env res tr).2).handlerCalls = tr.handlerCalls := by
  unfold validateResStage
  cases h : env.validateRes res with
  | error v => rfl
  | ok b =>
    cases b with
    | false => rfl
    | true => exact preReturnStage_calls res env.flows tr

theorem validateResStage_reached {ρ σ : Type} (apiName : String) (env : ApiEnv ρ σ)
    (res : σ) (tr : ApiTrace) :
    ((validateResStage apiName env res tr).2).reachedHandlerLookup = tr.reachedHandlerLookup := by
  unfold validateResStage
  cases h : env.validateRes res with
  | error v => rfl
  | ok b =>
    cases b with
    | false => rfl
    | true => exact preReturnStage_reached res env.flows tr

theorem invokeStage_reached {ρ σ : Type} (apiName : String) (env : ApiEnv ρ σ)
    (req : ρ) (tr : ApiTrace) :
    ((invokeStage apiName env req tr).2).reachedHandlerLookup = true := by
  unfold invokeStage
  cases hh : env.handler with
  | none => rfl
  | some f =>
    dsimp only
    cases hr : f req with
    | throws v => rfl
    | ret res => rw [validateResStage_reached]

/-! ## C3: the request-validation gate -/

/-- C3: when the request validator of the registry rejects the request,
`handleApiCall` answers with an `INVALID_REQUEST`/`ClientError` failure
envelope, the handler is never invoked (the invocation counter stays zero),
and the `preApiCall` hook does not run either, validation coming first. -/
theorem invalid_request_gate {ρ σ : Type} (apiName : String) (env : ApiEnv ρ σ)
    (req : ρ) (h : env.validateReq req = Except.ok false) :
    (handleApiCall apiName env req).1 = Except.ok (Envelope.fail
      ⟨"Invalid request data for API: " ++ apiName, "INVALID_REQUEST", "ClientError"⟩) ∧
    (handleApiCall apiName env req).2.handlerCalls = 0 ∧
    (handleApiCall apiName env req).2.preApiCallRan = false := by
  unfold handleApiCall
  rw [h]
  exact ⟨rfl, rfl, rfl⟩

/-- Witness for C3 at a concrete setup with a bound hook and handler. -/
theorem invalid_request_gate_witness :
    (handleApiCall "user/login" envRejectReq ()).1 = Except.ok (Envelope.fail
      ⟨"Invalid request data for API: user/login", "INVALID_REQUEST", "ClientError"⟩) ∧
    (handleApiCall "user/login" envRejectReq ()).2.handlerCalls = 0 ∧
    (handleApiCall "user/login" envRejectReq ()).2.preApiCallRan = false :=
  invalid_request_gate "user/login" envRejectReq () rfl

/-! ## C4: the preApiCall gate -/

/-- C4: a bound `preApiCall` hook that settles without invoking its
continuation makes `handleApiCall` answer `FLOW_CANCELED`/`ServerError`
without the handler ever being invoked; a hook that does invoke it lets
dispatch proceed to the handler lookup. -/
theorem preApiCall_gate {ρ σ : Type} (apiName : String) (env : ApiEnv ρ σ)
    (req : ρ) (hb : HookBehavior)
    (hv : env.validateReq req = Except.ok true)
    (hpre : env.flows.preApiCall = some hb)
    (hexit : hb.exit = HookExit.ret) :
    (hb.callsNext = false →
      (handleApiCall apiName env req).1 = Except.ok (Envelope.fail
        ⟨"API call canceled by preApiCall flow", "FLOW_CANCELED", "ServerError"⟩) ∧
      (handleApiCall apiName env req).2.handlerCalls = 0) ∧
    (hb.callsNext = true →
      (handleApiCall apiName env req).2.reachedHandlerLookup = true) := by
  obtain ⟨cn, ex⟩ := hb
  dsimp only at hexit
  subst hexit
  unfold handleApiCall
  rw [hv]
  unfold preFlowStage
  rw [hpre]
  dsimp only
  constructor
  · intro hnext
    subst hnext
    exact ⟨rfl, rfl⟩
  · intro hnext
    subst hnext
    exact invokeStage_reached apiName env req _

/-- Witness for C4, applied once to a declining hook and once to an
allowing one. -/
theorem preApiCall_gate_witness :
    ((handleApiCall "user/login" envPreCancel ()).1 = Except.ok (Envelope.fail
      ⟨"API call canceled by preApiCall flow", "FLOW_CANCELED", "ServerError"⟩) ∧
     (handleApiCall "user/login" envPreCancel ()).2.handlerCalls = 0) ∧
    (handleApiCall "user/login" envPreAllow ()).2.reachedHandlerLookup = true :=
  ⟨(preApiCall_gate "user/login" envPreCancel () ⟨false, HookExit.ret⟩
      rfl rfl rfl).1 rfl,
   (preApiCall_gate "user/login" envPreAllow () ⟨true, HookExit.ret⟩
      rfl rfl rfl).2 rfl⟩

/-! ## C10: the preApiReturn hook is binding -/

theorem invokeStage_cancelled {ρ σ : Type} (apiName : String) (env : ApiEnv ρ σ)
    (req : ρ) (tr : ApiTrace) (f : ρ → HandlerOutcome σ) (res : σ) (cn : Bool)
    (hf : env.handler = some f)
    (hret : f req = HandlerOutcome.ret res)
    (hvr : env.validateRes res = Except.ok true)
    (hprr : env.flows.preApiReturn = some ⟨cn, HookExit.ret⟩)
    (hnext : cn = false) :
    (invokeStage apiName env req tr).1 = Except.ok (Envelope.fail
      ⟨"API return canceled by preApiReturn flow", "FLOW_CANCELED", "ServerError"⟩) ∧
    (invokeStage apiName env req tr).2.handlerCalls = tr.handlerCalls + 1 := by
  subst hnext
  unfold invokeStage
  rw [hf]
  dsimp only
  rw [hret]
  unfold validateResStage
  dsimp only
  rw [hvr]
  unfold preReturnStage
  dsimp only
  rw [hprr]
  exact ⟨rfl, rfl⟩

/-- C10: a bound `preApiReturn` hook that settles without invoking its
continuation turns an already computed, already validated handler success
into a `FLOW_CANCELED`/`ServerError` failure envelope — the handler ran
exactly once, yet its response is discarded.  Rejection at this point is
binding, unlike at the detached post-call point. -/
theorem preApiReturn_binding {ρ σ : Type} (apiName : String) (env : ApiEnv ρ σ)
    (req : ρ) (f : ρ → HandlerOutcome σ) (res : σ) (cn : Bool)
    (hv : env.validateReq req = Except.ok true)
    (hpre : HookAllows env.flows.preApiCall)
    (hf : env.handler = some f)
    (hret : f req = HandlerOutcome.ret res)
    (hvr : env.validateRes res = Except.ok true)
    (hprr : env.flows.preApiReturn = some ⟨cn, HookExit.ret⟩)
    (hnext : cn = false) :
    (handleApiCall apiName env req).1 = Except.ok (Envelope.fail
      ⟨"API return canceled by preApiReturn flow", "FLOW_CANCELED", "ServerError"⟩) ∧
    (handleApiCall apiName env req).2.handlerCalls = 1 := by
  unfold handleApiCall
  rw [hv]
  unfold preFlowStage
  cases hcase : env.flows.preApiCall with
  | none =>
    exact invokeStage_cancelled apiName env req ApiTrace.start f res cn
      hf hret hvr hprr hnext
  | some phb =>
    rw [hcase] at hpre
    unfold HookAllows at hpre
    obtain ⟨pcn, pex⟩ := phb
    dsimp only at hpre
    rw [hpre.1, hpre.2]
    dsimp only
    exact invokeStage_cancelled apiName env req
      { ApiTrace.start with preApiCallRan := true } f res cn
      hf hret hvr hprr hnext

/-- Witness for C10 at a concrete setup. -/
theorem preApiReturn_binding_witness :
    (handleApiCall "user/login" envPreReturnCancel ()).1 = Except.ok (Envelope.fail
      ⟨"API return canceled by preApiReturn flow", "FLOW_CANCELED", "ServerError"⟩) ∧
    (handleApiCall "user/login" envPreReturnCancel ()).2.handlerCalls = 1 :=
  preApiReturn_binding "user/login" envPreReturnCancel ()
    (fun _ => HandlerOutcome.ret 30) 30 false
    rfl trivial rfl rfl rfl rfl rfl

/-! ## C1: totality of the dispatcher -/

theorem catchClause_ok {σ : Type} (t : Thrown) (h : t ≠ Thrown.nullish) :
    ∃ e, (catchClause (σ := σ) t) = Except.ok e := by
  cases t with
  | lwErr m c ty => exact ⟨_, rfl⟩
  | plain m => exact ⟨_, rfl⟩
  | nullish => exact absurd rfl h

theorem postFlowStage_ok {σ : Type} (res : σ) (post : Option HookBehavior)
    (tr : ApiTrace) (h : HookNoNullish post) :
    ∃ e, (postFlowStage res post tr).1 = Except.ok e := by
  rcases post with _ | ⟨cn, ex⟩
  · exact ⟨_, rfl⟩
  · rcases ex with _ | v | v
    · exact ⟨_, rfl⟩
    · obtain ⟨h1, h2⟩ := h
      exact catchClause_ok v (fun hv => h1 (by rw [hv]))
    · exact ⟨_, rfl⟩

theorem preReturnStage_ok {σ : Type} (res : σ) (flows : ApiFlows) (tr : ApiTrace)
    (h1 : HookNoNullish flows.preApiReturn) (h2 : HookNoNullish flows.postApiCall) :
    ∃ e, (preReturnStage res flows tr).1 = Except.ok e := by
  rcases flows with ⟨pc, pr, po⟩
  rcases pr with _ | ⟨cn, ex⟩
  · exact postFlowStage_ok res po tr h2
  · rcases ex with _ | v | v
    · rcases cn
      · exact ⟨_, rfl⟩
      · exact postFlowStage_ok res po _ h2
    · obtain ⟨g1, g2⟩ := h1
      exact catchClause_ok v (fun hv => g1 (by rw [hv]))
    · obtain ⟨g1, g2⟩ := h1
      exact catchClause_ok v (fun hv => g2 (by rw [hv]))

theorem validateResStage_ok {ρ σ : Type} (apiName : String) (env : ApiEnv ρ σ)
    (res : σ) (tr : ApiTrace)
    (hv : ∀ s, env.validateRes s ≠ Except.error Thrown.nullish)
    (h1 : HookNoNullish env.flows.preApiReturn)
    (h2 : HookNoNullish env.flows.postApiCall) :
    ∃ e, (validateResStage apiName env res tr).1 = Except.ok e := by
  unfold validateResStage
  cases hcase : env.validateRes res with
  | error v =>
    have hne : v ≠ Thrown.nullish := by
      intro hv2
      subst hv2
      exact (hv res) hcase
    exact catchClause_ok v hne
  | ok b =>
    cases b with
    | false => exact ⟨_, rfl⟩
    | true => exact preReturnStage_ok res env.flows tr h1 h2

theorem invokeStage_ok {ρ σ : Type} (apiName : String) (env : ApiEnv ρ σ)
    (req : ρ) (tr : ApiTrace)
    (hvr : ∀ s, env.validateRes s ≠ Except.error Thrown.nullish)
    (hh : ∀ f, env.handler = some f → ∀ r, f r ≠ HandlerOutcome.throws Thrown.nullish)
    (h1 : HookNoNullish env.flows.preApiReturn)
    (h2 : HookNoNullish env.flows.postApiCall) :
    ∃ e, (invokeStage apiName env req tr).1 = Except.ok e := by
  unfold invokeStage
  cases hcase : env.handler with
  | none => exact ⟨_, rfl⟩
  | some f =>
    dsimp only
    cases hr : f req with
    | throws v =>
      have hne : v ≠ Thrown.nullish := by
        intro hv2
        subst hv2
        exact hh f hcase req hr
      exact catchClause_ok v hne
    | ret res => exact validateResStage_ok apiName env res _ hvr h1 h2

theorem preFlowStage_ok {ρ σ : Type} (apiName : String) (env : ApiEnv ρ σ)
    (req : ρ) (tr : ApiTrace)
    (hvr : ∀ s, env.validateRes s ≠ Except.error Thrown.nullish)
    (hpc : HookNoNullish env.flows.preApiCall)
    (h1 : HookNoNullish env.flows.preApiReturn)
    (h2 : HookNoNullish env.flows.postApiCall)
    (hh : ∀ f, env.handler = some f → ∀ r, f r ≠ HandlerOutcome.throws Thrown.nullish) :
    ∃ e, (preFlowStage apiName env req tr).1 = Except.ok e := by
  unfold preFlowStage
  cases hcase : env.flows.preApiCall with
  | none => exact invokeStage_ok apiName env req tr hvr hh h1 h2
  | some hb =>
    rw [hcase] at hpc
    obtain ⟨cn, ex⟩ := hb
    dsimp only
    obtain ⟨g1, g2⟩ := hpc
    rcases ex with _ | v | v
    · rcases cn
      · exact ⟨_, rfl⟩
      · exact invokeStage_ok apiName env req _ hvr hh h1 h2
    · exact catchClause_ok v (fun hv => g1 (by rw [hv]))
    · exact catchClause_ok v (fun hv => g2 (by rw [hv]))

/-- C1 (amended): provided no validator, hook or handler ever throws the
value `null` or `undefined`, `handleApiCall` always returns exactly one
result envelope — either a success carrying the handler result or a failure
carrying a `{message, code, type}` error — and no exception escapes to its
caller.  (The amendment is forced by the counterexample
`handleApiCall_nullish_escape`: a thrown `null` makes the catch block itself
throw while reading `error.message`.) -/
theorem handleApiCall_total {ρ σ : Type} (apiName : String) (env : ApiEnv ρ σ)
    (req : ρ) (h : NoNullishEnv env) :
    ∃ e, (handleApiCall apiName env req).1 = Except.ok e := by
  obtain ⟨hvq, hvs, hpc, hpr, hpo, hh⟩ := h
  unfold handleApiCall
  cases hcase : env.validateReq req with
  | error v =>
    have hne : v ≠ Thrown.nullish := by
      intro hv2
      subst hv2
      exact (hvq req) hcase
    exact catchClause_ok v hne
  | ok b =>
    cases b with
    | false => exact ⟨_, rfl⟩
    | true => exact preFlowStage_ok apiName env req ApiTrace.start hvs hpc hpr hpo hh

/-- C1 counterexample: a handler that throws `null` (legal for a JavaScript
function) makes the dispatcher itself throw — reading `error.message` in the
catch block raises a `TypeError` that escapes `handleApiCall` instead of any
result envelope. -/
theorem handleApiCall_nullish_escape :
    (handleApiCall "test/error" envNullish ()).1 = Except.error JsCrash.typeError := rfl

/-- Witness for C1 at the plain succeeding setup. -/
theorem handleApiCall_total_witness :
    ∃ e, (handleApiCall "math/add" envTotal ()).1 = Except.ok e :=
  handleApiCall_total "math/add" envTotal ()
    ⟨fun r => by simp [envTotal],
     fun s => by simp [envTotal],
     by simp [envTotal, HookNoNullish],
     by simp [envTotal, HookNoNullish],
     by simp [envTotal, HookNoNullish],
     by
      intro f hf r
      simp only [envTotal, Option.some.injEq] at hf
      subst hf
      simp⟩

/-! ## C2: wrapping of handler exceptions -/

theorem preFlowStage_allows {ρ σ : Type} (apiName : String) (env : ApiEnv ρ σ)
    (req : ρ) (tr : ApiTrace) (hpre : HookAllows env.flows.preApiCall) :
    ∃ tr2, preFlowStage apiName env req tr = invokeStage apiName env req tr2 := by
  unfold preFlowStage
  cases hcase : env.flows.preApiCall with
  | none => exact ⟨tr, rfl⟩
  | some hb =>
    rw [hcase] at hpre
    unfold HookAllows at hpre
    obtain ⟨cn, ex⟩ := hb
    dsimp only at hpre
    rw [hpre.1, hpre.2]
    dsimp only
    exact ⟨_, rfl⟩

theorem invokeStage_throw {ρ σ : Type} (apiName : String) (env : ApiEnv ρ σ)
    (req : ρ) (tr : ApiTrace) (f : ρ → HandlerOutcome σ) (t : Thrown)
    (hf : env.handler = some f) (ht : f req = HandlerOutcome.throws t) :
    (invokeStage apiName env req tr).1 = catchClause t := by
  unfold invokeStage
  rw [hf]
  dsimp only
  rw [ht]

/-- C2 (amended): an exception thrown by the handler is caught; a
`LightweightError` instance has its message, code and type passed through
verbatim; any other thrown value becomes `INTERNAL_ERROR`/`ServerError`
whose message is the `message` property of the exception when that is a
non-empty string, and `"Internal server error"` otherwise.  (The amendment —
"non-empty", instead of the unconditional "the message of the exception" —
is forced by the counterexample `handler_empty_message_replaced`: the code
computes `error.message || "Internal server error"`, and the empty string is
falsy.  A thrown `null`/`undefined` instead crashes the catch block, see the
counterexample of the totality claim.) -/
theorem handler_throw_wrapping {ρ σ : Type} (apiName : String) (env : ApiEnv ρ σ)
    (req : ρ) (f : ρ → HandlerOutcome σ) (t : Thrown)
    (hv : env.validateReq req = Except.ok true)
    (hpre : HookAllows env.flows.preApiCall)
    (hf : env.handler = some f)
    (ht : f req = HandlerOutcome.throws t) :
    (∀ m c ty, t = Thrown.lwErr m c ty →
      (handleApiCall apiName env req).1 = Except.ok (Envelope.fail ⟨m, c, ty⟩)) ∧
    (∀ m, t = Thrown.plain m →
      (handleApiCall apiName env req).1 = Except.ok (Envelope.fail
        ⟨jsStringOr m "Internal server error", "INTERNAL_ERROR", "ServerError"⟩)) := by
  have hres : (handleApiCall apiName env req).1 = catchClause t := by
    unfold handleApiCall
    rw [hv]
    obtain ⟨tr2, hstep⟩ := preFlowStage_allows apiName env req ApiTrace.start hpre
    rw [hstep]
    exact invokeStage_throw apiName env req tr2 f t hf ht
  constructor
  · intro m c ty hts
    subst hts
    rw [hres]
    rfl
  · intro m hts
    subst hts
    rw [hres]
    rfl

/-- C2 counterexample: the handler throws `Error("")`.  The exception has a
message, the empty string, but the envelope carries `"Internal server
error"` instead of preserving it, because `error.message || fallback` treats
the empty string as falsy. -/
theorem handler_empty_message_replaced :
    (handleApiCall "test/error" envEmptyMsg ()).1 = Except.ok (Envelope.fail
      ⟨"Internal server error", "INTERNAL_ERROR", "ServerError"⟩) := rfl

/-- Witness for C2: the concrete scenario — a handler throwing
`Error("boom")` yields `{isSucc:false, err:{message:"boom",
code:"INTERNAL_ERROR", type:"ServerError"}}`. -/
theorem handler_throw_wrapping_witness :
    (handleApiCall "test/error" envBoom ()).1 = Except.ok (Envelope.fail
      ⟨"boom", "INTERNAL_ERROR", "ServerError"⟩) := by
  have h := (handler_throw_wrapping "test/error" envBoom ()
    (fun _ => HandlerOutcome.throws (Thrown.plain (some "boom")))
    (Thrown.plain (some "boom")) rfl trivial rfl rfl).2 (some "boom") rfl
  simpa [jsStringOr] using h

/-! ## C5: the postApiCall hook is detached for asynchronous outcomes -/

theorem invoke_to_postFlow {ρ σ : Type} (apiName : String) (env : ApiEnv ρ σ)
    (req : ρ) (tr : ApiTrace) (f : ρ → HandlerOutcome σ) (res : σ)
    (hf : env.handler = some f)
    (hret : f req = HandlerOutcome.ret res)
    (hvr : env.validateRes res = Except.ok true)
    (hprr : HookAllows env.flows.preApiReturn) :
    ∃ tr2, invokeStage apiName env req tr = postFlowStage res env.flows.postApiCall tr2 := by
  unfold invokeStage
  rw [hf]
  dsimp only
  rw [hret]
  unfold validateResStage
  dsimp only
  rw [hvr]
  unfold preReturnStage
  cases hcase : env.flows.preApiReturn with
  | none => exact ⟨_, rfl⟩
  | some phb =>
    rw [hcase] at hprr
    unfold HookAllows at hprr
    obtain ⟨cn, ex⟩ := phb
    dsimp only at hprr
    rw [hprr.1, hprr.2]
    dsimp only
    exact ⟨_, rfl⟩

theorem postFlowStage_noSync {σ : Type} (res : σ) (cn : Bool) (ex : HookExit)
    (tr : ApiTrace) (hnsync : ∀ v, ex ≠ HookExit.syncThrow v) :
    (postFlowStage res (some ⟨cn, ex⟩) tr).1 = Except.ok (Envelope.succ res) ∧
    (∀ v, ex = HookExit.asyncThrow v →
      (postFlowStage res (some ⟨cn, ex⟩) tr).2.postHookErrorLogged = true) := by
  rcases ex with _ | v | v
  · exact ⟨rfl, by intro v h; cases h⟩
  · exact absurd rfl (hnsync v)
  · exact ⟨rfl, fun w h => rfl⟩

/-- C5 (amended): once a success envelope is finalized, a bound
`postApiCall` hook that settles, declines its continuation, or rejects its
promise (the only failure an `async` hook can produce) does not change the
envelope; a rejection is caught and logged.  (The amendment — excluding
synchronous throws — is forced by the counterexample
`postApiCall_sync_throw_changes_result`: a plain hook throwing before
returning a promise escapes `Promise.resolve(...)` and is routed through
the outer catch, replacing the success envelope.) -/
theorem postApiCall_detached {ρ σ : Type} (apiName : String) (env : ApiEnv ρ σ)
    (req : ρ) (f : ρ → HandlerOutcome σ) (res : σ) (cn : Bool) (ex : HookExit)
    (hv : env.validateReq req = Except.ok true)
    (hpre : HookAllows env.flows.preApiCall)
    (hf : env.handler = some f)
    (hret : f req = HandlerOutcome.ret res)
    (hvr : env.validateRes res = Except.ok true)
    (hprr : HookAllows env.flows.preApiReturn)
    (hpost : env.flows.postApiCall = some ⟨cn, ex⟩)
    (hnsync : ∀ v, ex ≠ HookExit.syncThrow v) :
    (handleApiCall apiName env req).1 = Except.ok (Envelope.succ res) ∧
    (∀ v, ex = HookExit.asyncThrow v →
      (handleApiCall apiName env req).2.postHookErrorLogged = true) := by
  have hred : ∃ tr2, handleApiCall apiName env req = postFlowStage res (some ⟨cn, ex⟩) tr2 := by
    unfold handleApiCall
    rw [hv]
    obtain ⟨trA, hA⟩ := preFlowStage_allows apiName env req ApiTrace.start hpre
    rw [hA]
    obtain ⟨trB, hB⟩ := invoke_to_postFlow apiName env req trA f res hf hret hvr hprr
    rw [hB, hpost]
    exact ⟨trB, rfl⟩
  obtain ⟨tr2, hred⟩ := hred
  rw [hred]
  exact postFlowStage_noSync res cn ex tr2 hnsync

/-- C5 counterexample: a plain (non-`async`) `postApiCall` hook that throws
synchronously replaces the already finalized success envelope: the call
returns an `INTERNAL_ERROR` failure instead of the success carrying the
handler result. -/
theorem postApiCall_sync_throw_changes_result :
    (handleApiCall "math/add" envPostSync ()).1 = Except.ok (Envelope.fail
      ⟨"kaboom", "INTERNAL_ERROR", "ServerError"⟩) := rfl

/-- Witness for C5: a rejecting `async` post hook leaves the success
envelope untouched and its error is logged. -/
theorem postApiCall_detached_witness :
    (handleApiCall "math/add" envPostAsync ()).1 = Except.ok (Envelope.succ 30) ∧
    (handleApiCall "math/add" envPostAsync ()).2.postHookErrorLogged = true := by
  have h := postApiCall_detached "math/add" envPostAsync ()
    (fun _ => HandlerOutcome.ret 30) 30 false
    (HookExit.asyncThrow (Thrown.plain (some "late")))
    rfl trivial rfl rfl rfl trivial rfl (fun v => by simp)
  exact ⟨h.1, h.2 (Thrown.plain (some "late")) rfl⟩

/-! ## C6: message fan-out isolation -/

theorem hasSyncThrow_eq_false {μ : Type} (msg : μ) (hs : List (μ → HookExit))
    (h : ∀ f ∈ hs, ∀ v, f msg ≠ HookExit.syncThrow v) :
    hasSyncThrow (hs.map (fun f => f msg)) = false := by
  induction hs with
  | nil => rfl
  | cons f rest ih =>
    rw [List.map_cons]
    cases hf : f msg with
    | syncThrow v => exact absurd hf (h f (List.mem_cons_self f rest) v)
    | ret => exact ih (fun g hg v => h g (List.mem_cons_of_mem f hg) v)
    | asyncThrow v => exact ih (fun g hg v => h g (List.mem_cons_of_mem f hg) v)

theorem msgFanout_noSync (es : List HookExit) (h : hasSyncThrow es = false) :
    msgFanout es = es.map (fun e => match e with
      | HookExit.ret => HandlerFate.awaitedOk
      | HookExit.asyncThrow _ => HandlerFate.awaitedLogged
      | HookExit.syncThrow _ => HandlerFate.syncThrew) := by
  induction es with
  | nil => rfl
  | cons e rest ih =>
    cases e with
    | syncThrow v => exact absurd h (by simp [hasSyncThrow])
    | ret =>
      have hrest : hasSyncThrow rest = false := h
      unfold msgFanout
      rw [hrest, ih hrest, List.map_cons]
      rfl
    | asyncThrow v =>
      have hrest : hasSyncThrow rest = false := h
      unfold msgFanout
      rw [hrest, ih hrest, List.map_cons]
      rfl

/-- C6 (amended): a message dispatch that reaches the fan-out with at least
one bound handler, none of which throws synchronously (rejected promises --
the failure mode of `async` handlers -- are allowed), invokes every handler
with the message, awaits them all, catches and logs each rejection
independently, and surfaces nothing to the sender.  (The restriction to
asynchronous failures is forced by the counterexample
`msg_sync_throw_skips_second`: a handler throwing synchronously aborts the
`map` that builds the wrapped promises, so later handlers are never invoked
and earlier ones are never awaited.) -/
theorem msg_fanout_isolation {μ : Type} (env : MsgEnv μ) (msg : μ)
    (hv : env.validateMsg msg = Except.ok true)
    (hpre : HookAllows env.preMsgReceive)
    (hne : env.handlers ≠ [])
    (hnosync : ∀ f ∈ env.handlers, ∀ v, f msg ≠ HookExit.syncThrow v) :
    (handleMsgCall env msg).fates = env.handlers.map (fun f =>
      match f msg with
      | HookExit.ret => HandlerFate.awaitedOk
      | HookExit.asyncThrow _ => HandlerFate.awaitedLogged
      | HookExit.syncThrow _ => HandlerFate.syncThrew) ∧
    (∀ fate ∈ (handleMsgCall env msg).fates,
      fate = HandlerFate.awaitedOk ∨ fate = HandlerFate.awaitedLogged) ∧
    (handleMsgCall env msg).outerErrorLogged = false := by
  have hred : handleMsgCall env msg = msgFanoutStage env msg := by
    unfold handleMsgCall
    rw [hv]
    cases hcase : env.preMsgReceive with
    | none => rfl
    | some hb =>
      rw [hcase] at hpre
      unfold HookAllows at hpre
      obtain ⟨cn, ex⟩ := hb
      dsimp only at hpre
      rw [hpre.1, hpre.2]
      rfl
  have hie : env.handlers.isEmpty = false := by
    cases hh : env.handlers with
    | nil => exact absurd hh hne
    | cons a l => rfl
  have hsync : hasSyncThrow (env.handlers.map (fun f => f msg)) = false :=
    hasSyncThrow_eq_false msg env.handlers hnosync
  have hstage : msgFanoutStage env msg =
      ⟨msgFanout (env.handlers.map (fun f => f msg)), false, false, false,
       hasSyncThrow (env.handlers.map (fun f => f msg))⟩ := by
    unfold msgFanoutStage
    rw [hie]
    rfl
  have hfst : (handleMsgCall env msg).fates = env.handlers.map (fun f =>
      match f msg with
      | HookExit.ret => HandlerFate.awaitedOk
      | HookExit.asyncThrow _ => HandlerFate.awaitedLogged
      | HookExit.syncThrow _ => HandlerFate.syncThrew) := by
    rw [hred, hstage]
    dsimp only
    rw [msgFanout_noSync _ hsync, List.map_map]
    rfl
  refine ⟨hfst, ?_, ?_⟩
  · intro fate hf
    rw [hfst] at hf
    rw [List.mem_map] at hf
    obtain ⟨f, hfmem, hfe⟩ := hf
    cases hc : f msg with
    | ret =>
      simp only [hc] at hfe
      subst hfe
      exact Or.inl rfl
    | asyncThrow v =>
      simp only [hc] at hfe
      subst hfe
      exact Or.inr rfl
    | syncThrow v => exact absurd hc (hnosync f hfmem v)
  · rw [hred, hstage]
    dsimp only
    exact hsync

/-- C6 counterexample: two handlers are bound; the first throws
synchronously, and the second is never invoked — the fan-out `map` aborts
before reaching it (and nothing is awaited), contradicting the claim that
one throwing handler cannot prevent another from being invoked. -/
theorem msg_sync_throw_skips_second :
    (handleMsgCall envMsgSync ()).fates =
      [HandlerFate.syncThrew, HandlerFate.notInvoked] := rfl

/-- Witness for C6: two handlers, the first rejecting asynchronously; both
are invoked and awaited, the rejection is logged on its own, and nothing
reaches the sender. -/
theorem msg_fanout_isolation_witness :
    (handleMsgCall envMsgIso ()).fates =
      [HandlerFate.awaitedLogged, HandlerFate.awaitedOk] ∧
    (handleMsgCall envMsgIso ()).outerErrorLogged = false := by
  have h := msg_fanout_isolation envMsgIso () rfl trivial (by simp [envMsgIso])
    (by
      intro f hf v
      simp only [envMsgIso] at hf
      rcases List.mem_cons.mp hf with hf1 | hf2
      · subst hf1
        simp
      · rcases List.mem_cons.mp hf2 with hf1 | hf3
        · subst hf1
          simp
        · exact absurd hf3 (List.not_mem_nil f))
  exact ⟨h.1, h.2.2⟩

/-! ## C8: codec round-trip -/

/-- C8: for every value and for each of the `json` and `binary` modes,
deserializing the serialized form recovers the value, given the platform
facts that `JSON.parse` inverts `JSON.stringify` on it and that the UTF-8
decoder inverts the encoder on its JSON text; `json` mode produces the
textual form, `binary` mode the byte form, and `deserialize` recovers the
value from both. -/
theorem serialize_deserialize_roundtrip {α β : Type}
    (stringify : α → String) (parse : String → Option α)
    (encode : String → β) (decode : β → String)
    (x : α) (mode : SerMode)
    (hmode : mode = SerMode.json ∨ mode = SerMode.binary)
    (hparse : parse (stringify x) = some x)
    (hdecode : decode (encode (stringify x)) = stringify x) :
    deserialize parse decode (serialize stringify encode x mode) = some x := by
  rcases hmode with h | h <;> subst h
  · exact hparse
  · show parse (decode (encode (stringify x))) = some x
    rw [hdecode]
    exact hparse

/-- Witness for C8 at a concrete value and concrete codec functions. -/
theorem serialize_deserialize_roundtrip_witness :
    deserialize (fun s => if s = "30" then some 30 else none) String.mk
      (serialize Nat.repr String.data 30 SerMode.json) = some 30 ∧
    deserialize (fun s => if s = "30" then some 30 else none) String.mk
      (serialize Nat.repr String.data 30 SerMode.binary) = some 30 :=
  ⟨serialize_deserialize_roundtrip Nat.repr
      (fun s => if s = "30" then some 30 else none) String.data String.mk
      30 SerMode.json (Or.inl rfl) (by decide) (by decide),
   serialize_deserialize_roundtrip Nat.repr
      (fun s => if s = "30" then some 30 else none) String.data String.mk
      30 SerMode.binary (Or.inr rfl) (by decide) (by decide)⟩

/-! ## C9: validation fallback order -/

/-- C9: each of `validateRequest`, `validateResponse` and `validateMessage`
decides exactly by the claimed priority: (1) accept when validation is
globally disabled; (2) else the explicit validator registered for the
service and direction; (3) else the caller-supplied custom validator for the
name and direction; (4) else accept.  For messages no custom validator for
the message direction can exist — the `customValidators` entries only carry
`req`/`res` slots — so clause (3) is vacuous there, which the third equation
records by passing `none`; and being total functions into `Bool`, the
validators never throw on a failed validation. -/
theorem validate_fallback_order {π : Type} (opts : GenOptions π)
    (st : GenState π) (name : String) (data : π) :
    validateRequest opts st name data =
      specFallbackVerdict opts.enableValidation
        ((alookup st.apiValidators name).bind ApiVal.req)
        ((alookup opts.customValidators name).bind CustomVal.req) data ∧
    validateResponse opts st name data =
      specFallbackVerdict opts.enableValidation
        ((alookup st.apiValidators name).bind ApiVal.res)
        ((alookup opts.customValidators name).bind CustomVal.res) data ∧
    validateMessage opts st name data =
      specFallbackVerdict opts.enableValidation
        (alookup st.msgValidators name) none data := by
  refine ⟨rfl, rfl, ?_⟩
  unfold validateMessage specFallbackVerdict
  cases opts.enableValidation with
  | false => rfl
  | true =>
    cases alookup st.msgValidators name with
    | none => rfl
    | some v => rfl

/-! ## C7: identifier assignment -/

theorem alookup_cons {α β : Type} [DecidableEq α] (k : α) (v : β)
    (l : List (α × β)) (a : α) :
    alookup ((k, v) :: l) a = if a = k then some v else alookup l a := rfl

theorem registerApi_fresh {π : Type} (opts : GenOptions π) (st : GenState π)
    (name : String) (v : Option (ApiVal π))
    (h : alookup st.apiName2Id name = none) :
    (registerApi opts st name v).1 = st.nextId ∧
    (registerApi opts st name v).2.apiName2Id = (name, st.nextId) :: st.apiName2Id ∧
    (registerApi opts st name v).2.msgName2Id = st.msgName2Id ∧
    (registerApi opts st name v).2.nextId = st.nextId + 1 := by
  unfold registerApi
  rw [h]
  dsimp only
  refine ⟨rfl, ?_, ?_, ?_⟩ <;>
    cases v <;>
      (repeat' split) <;> rfl

theorem registerApi_known {π : Type} (opts : GenOptions π) (st : GenState π)
    (name : String) (v : Option (ApiVal π)) (i : Nat)
    (h : alookup st.apiName2Id name = some i) :
    registerApi opts st name v = (i, st) := by
  unfold registerApi
  rw [h]

theorem registerMsg_fresh {π : Type} (opts : GenOptions π) (st : GenState π)
    (name : String) (v : Option (π → Bool))
    (h : alookup st.msgName2Id name = none) :
    (registerMsg opts st name v).1 = st.nextId ∧
    (registerMsg opts st name v).2.msgName2Id = (name, st.nextId) :: st.msgName2Id ∧
    (registerMsg opts st name v).2.apiName2Id = st.apiName2Id ∧
    (registerMsg opts st name v).2.nextId = st.nextId + 1 := by
  unfold registerMsg
  rw [h]
  dsimp only
  refine ⟨rfl, ?_, ?_, ?_⟩ <;>
    cases v <;>
      (repeat' split) <;> rfl

theorem registerMsg_known {π : Type} (opts : GenOptions π) (st : GenState π)
    (name : String) (v : Option (π → Bool)) (i : Nat)
    (h : alookup st.msgName2Id name = some i) :
    registerMsg opts st name v = (i, st) := by
  unfold registerMsg
  rw [h]

theorem WF_initial (π : Type) : WFState (GenState.initial π) := by
  refine ⟨?_, ?_, ?_, ?_, ?_⟩
  · intro n i hl
    exact Option.noConfusion hl
  · intro n i hl
    exact Option.noConfusion hl
  · intro n1 n2 i hl1 hl2
    exact Option.noConfusion hl1
  · intro n1 n2 i hl1 hl2
    exact Option.noConfusion hl1
  · intro n1 n2 i hl1 hl2
    exact Option.noConfusion hl1

theorem WF_registerApi {π : Type} (opts : GenOptions π) (st : GenState π)
    (name : String) (v : Option (ApiVal π)) (h : WFState st) :
    WFState (registerApi opts st name v).2 := by
  obtain ⟨h1, h2, h3, h4, h5⟩ := h
  cases hcase : alookup st.apiName2Id name with
  | some i =>
    rw [registerApi_known opts st name v i hcase]
    exact ⟨h1, h2, h3, h4, h5⟩
  | none =>
    obtain ⟨hfst, hmap, hmsg, hnext⟩ := registerApi_fresh opts st name v hcase
    refine ⟨?_, ?_, ?_, ?_, ?_⟩
    · intro n i hl
      rw [hmap, alookup_cons] at hl
      rw [hnext]
      by_cases hn : n = name
      · rw [if_pos hn] at hl
        injection hl with hli
        subst hli
        exact Nat.lt_succ_self _
      · rw [if_neg hn] at hl
        exact Nat.lt_succ_of_lt (h1 n i hl)
    · intro n i hl
      rw [hmsg] at hl
      rw [hnext]
      exact Nat.lt_succ_of_lt (h2 n i hl)
    · intro n1 n2 i hl1 hl2
      rw [hmap, alookup_cons] at hl1 hl2
      by_cases hn1 : n1 = name <;> by_cases hn2 : n2 = name
      · rw [hn1, hn2]
      · rw [if_pos hn1] at hl1
        rw [if_neg hn2] at hl2
        injection hl1 with hli
        subst hli
        exact absurd (h1 n2 _ hl2) (Nat.lt_irrefl _)
      · rw [if_neg hn1] at hl1
        rw [if_pos hn2] at hl2
        injection hl2 with hli
        subst hli
        exact absurd (h1 n1 _ hl1) (Nat.lt_irrefl _)
      · rw [if_neg hn1] at hl1
        rw [if_neg hn2] at hl2
        exact h3 n1 n2 i hl1 hl2
    · intro n1 n2 i hl1 hl2
      rw [hmsg] at hl1 hl2
      exact h4 n1 n2 i hl1 hl2
    · intro n1 n2 i hl1 hl2
      rw [hmap, alookup_cons] at hl1
      rw [hmsg] at hl2
      by_cases hn1 : n1 = name
      · rw [if_pos hn1] at hl1
        injection hl1 with hli
        subst hli
        exact absurd (h2 n2 _ hl2) (Nat.lt_irrefl _)
      · rw [if_neg hn1] at hl1
        exact h5 n1 n2 i hl1 hl2

theorem WF_registerMsg {π : Type} (opts : GenOptions π) (st : GenState π)
    (name : String) (v : Option (π → Bool)) (h : WFState st) :
    WFState (registerMsg opts st name v).2 := by
  obtain ⟨h1, h2, h3, h4, h5⟩ := h
  cases hcase : alookup st.msgName2Id name with
  | some i =>
    rw [registerMsg_known opts st name v i hcase]
    exact ⟨h1, h2, h3, h4, h5⟩
  | none =>
    obtain ⟨hfst, hmap, hapi, hnext⟩ := registerMsg_fresh opts st name v hcase
    refine ⟨?_, ?_, ?_, ?_, ?_⟩
    · intro n i hl
      rw [hapi] at hl
      rw [hnext]
      exact Nat.lt_succ_of_lt (h1 n i hl)
    · intro n i hl
      rw [hmap, alookup_cons] at hl
      rw [hnext]
      by_cases hn : n = name
      · rw [if_pos hn] at hl
        injection hl with hli
        subst hli
        exact Nat.lt_succ_self _
      · rw [if_neg hn] at hl
        exact Nat.lt_succ_of_lt (h2 n i hl)
    · intro n1 n2 i hl1 hl2
      rw [hapi] at hl1 hl2
      exact h3 n1 n2 i hl1 hl2
    · intro n1 n2 i hl1 hl2
      rw [hmap, alookup_cons] at hl1 hl2
      by_cases hn1 : n1 = name <;> by_cases hn2 : n2 = name
      · rw [hn1, hn2]
      · rw [if_pos hn1] at hl1
        rw [if_neg hn2] at hl2
        injection hl1 with hli
        subst hli
        exact absurd (h2 n2 _ hl2) (Nat.lt_irrefl _)
      · rw [if_neg hn1] at hl1
        rw [if_pos hn2] at hl2
        injection hl2 with hli
        subst hli
        exact absurd (h2 n1 _ hl1) (Nat.lt_irrefl _)
      · rw [if_neg hn1] at hl1
        rw [if_neg hn2] at hl2
        exact h4 n1 n2 i hl1 hl2
    · intro n1 n2 i hl1 hl2
      rw [hapi] at hl1
      rw [hmap, alookup_cons] at hl2
      by_cases hn2 : n2 = name
      · rw [if_pos hn2] at hl2
        injection hl2 with hli
        subst hli
        exact absurd (h1 n1 _ hl1) (Nat.lt_irrefl _)
      · rw [if_neg hn2] at hl2
        exact h5 n1 n2 i hl1 hl2

theorem WF_applyRegOp {π : Type} (opts : GenOptions π) (st : GenState π)
    (op : RegOp π) (h : WFState st) : WFState (applyRegOp opts st op) := by
  cases op with
  | api n v => exact WF_registerApi opts st n v h
  | msg n v => exact WF_registerMsg opts st n v h

theorem WF_runRegOps {π : Type} (opts : GenOptions π) (ops : List (RegOp π))
    (st : GenState π) (h : WFState st) : WFState (runRegOps opts ops st) := by
  induction ops generalizing st with
  | nil => exact h
  | cons op rest ih => exact ih (applyRegOp opts st op) (WF_applyRegOp opts st op h)

theorem applyRegOp_keeps_api {π : Type} (opts : GenOptions π) (st : GenState π)
    (op : RegOp π) (n : String) (i : Nat)
    (h : alookup st.apiName2Id n = some i) :
    alookup (applyRegOp opts st op).apiName2Id n = some i := by
  cases op with
  | api m v =>
    show alookup (registerApi opts st m v).2.apiName2Id n = some i
    cases hcase : alookup st.apiName2Id m with
    | some j =>
      rw [registerApi_known opts st m v j hcase]
      exact h
    | none =>
      obtain ⟨_, hmap, _, _⟩ := registerApi_fresh opts st m v hcase
      rw [hmap, alookup_cons]
      have hn : n ≠ m := by
        intro he
        subst he
        rw [h] at hcase
        exact Option.noConfusion hcase
      rw [if_neg hn]
      exact h
  | msg m v =>
    show alookup (registerMsg opts st m v).2.apiName2Id n = some i
    cases hcase : alookup st.msgName2Id m with
    | some j =>
      rw [registerMsg_known opts st m v j hcase]
      exact h
    | none =>
      obtain ⟨_, _, hapi, _⟩ := registerMsg_fresh opts st m v hcase
      rw [hapi]
      exact h

theorem applyRegOp_keeps_msg {π : Type} (opts : GenOptions π) (st : GenState π)
    (op : RegOp π) (n : String) (i : Nat)
    (h : alookup st.msgName2Id n = some i) :
    alookup (applyRegOp opts st op).msgName2Id n = some i := by
  cases op with
  | api m v =>
    show alookup (registerApi opts st m v).2.msgName2Id n = some i
    cases hcase : alookup st.apiName2Id m with
    | some j =>
      rw [registerApi_known opts st m v j hcase]
      exact h
    | none =>
      obtain ⟨_, _, hmsg, _⟩ := registerApi_fresh opts st m v hcase
      rw [hmsg]
      exact h
  | msg m v =>
    show alookup (registerMsg opts st m v).2.msgName2Id n = some i
    cases hcase : alookup st.msgName2Id m with
    | some j =>
      rw [registerMsg_known opts st m v j hcase]
      exact h
    | none =>
      obtain ⟨_, hmap, _, _⟩ := registerMsg_fresh opts st m v hcase
      rw [hmap, alookup_cons]
      have hn : n ≠ m := by
        intro he
        subst he
        rw [h] at hcase
        exact Option.noConfusion hcase
      rw [if_neg hn]
      exact h

/-- C7: over any reachable registry state — first registration of a name
assigns the current (non-negative, `Nat`-valued) counter value as id and
advances the single counter shared by both namespaces; re-registering the
same name in the same namespace returns that id and leaves the whole state
untouched; distinct registrations, including the same string registered once
as api and once as message, carry distinct ids; and no later registration
ever reassigns an existing mapping. -/
theorem registration_id_semantics {π : Type} (opts : GenOptions π)
    (ops : List (RegOp π)) (name : String)
    (av : Option (ApiVal π)) (mv : Option (π → Bool)) (st : GenState π)
    (hst : st = runRegOps opts ops (GenState.initial π)) :
    (getServiceId st name SvcKind.api = none →
      (registerApi opts st name av).1 = st.nextId ∧
      (registerApi opts st name av).2.nextId = st.nextId + 1 ∧
      getServiceId (registerApi opts st name av).2 name SvcKind.api = some st.nextId) ∧
    (∀ i, getServiceId st name SvcKind.api = some i →
      registerApi opts st name av = (i, st)) ∧
    (getServiceId st name SvcKind.msg = none →
      (registerMsg opts st name mv).1 = st.nextId ∧
      (registerMsg opts st name mv).2.nextId = st.nextId + 1 ∧
      getServiceId (registerMsg opts st name mv).2 name SvcKind.msg = some st.nextId) ∧
    (∀ i, getServiceId st name SvcKind.msg = some i →
      registerMsg opts st name mv = (i, st)) ∧
    (∀ n1 n2 i1 i2, n1 ≠ n2 → getServiceId st n1 SvcKind.api = some i1 →
      getServiceId st n2 SvcKind.api = some i2 → i1 ≠ i2) ∧
    (∀ n1 n2 i1 i2, n1 ≠ n2 → getServiceId st n1 SvcKind.msg = some i1 →
      getServiceId st n2 SvcKind.msg = some i2 → i1 ≠ i2) ∧
    (∀ n1 n2 i1 i2, getServiceId st n1 SvcKind.api = some i1 →
      getServiceId st n2 SvcKind.msg = some i2 → i1 ≠ i2) ∧
    (∀ op n i, getServiceId st n SvcKind.api = some i →
      getServiceId (applyRegOp opts st op) n SvcKind.api = some i) ∧
    (∀ op n i, getServiceId st n SvcKind.msg = some i →
      getServiceId (applyRegOp opts st op) n SvcKind.msg = some i) := by
  have hwf : WFState st := hst ▸ WF_runRegOps opts ops (GenState.initial π) (WF_initial π)
  obtain ⟨h1, h2, h3, h4, h5⟩ := hwf
  refine ⟨?_, ?_, ?_, ?_, ?_, ?_, ?_, ?_, ?_⟩
  · intro hnone
    obtain ⟨hfst, hmap, _, hnext⟩ := registerApi_fresh opts st name av hnone
    refine ⟨hfst, hnext, ?_⟩
    show alookup (registerApi opts st name av).2.apiName2Id name = some st.nextId
    rw [hmap, alookup_cons, if_pos rfl]
  · intro i hi
    exact registerApi_known opts st name av i hi
  · intro hnone
    obtain ⟨hfst, hmap, _, hnext⟩ := registerMsg_fresh opts st name mv hnone
    refine ⟨hfst, hnext, ?_⟩
    show alookup (registerMsg opts st name mv).2.msgName2Id name = some st.nextId
    rw [hmap, alookup_cons, if_pos rfl]
  · intro i hi
    exact registerMsg_known opts st name mv i hi
  · intro n1 n2 i1 i2 hne hl1 hl2 heq
    subst heq
    exact hne (h3 n1 n2 i1 hl1 hl2)
  · intro n1 n2 i1 i2 hne hl1 hl2 heq
    subst heq
    exact hne (h4 n1 n2 i1 hl1 hl2)
  · intro n1 n2 i1 i2 hl1 hl2 heq
    subst heq
    exact h5 n1 n2 i1 hl1 hl2
  · intro op n i hi
    exact applyRegOp_keeps_api opts st op n i hi
  · intro op n i hi
    exact applyRegOp_keeps_msg opts st op n i hi

/-- Witness for C7: after registering `"hello"` as an API once, registering
it again returns the same id `0` with the state untouched, and registering
the same string as a message draws the distinct id `1` from the shared
counter. -/
theorem registration_id_semantics_witness :
    registerApi wOpts (runRegOps wOpts [RegOp.api "hello" none] (GenState.initial Unit))
        "hello" none
      = (0, runRegOps wOpts [RegOp.api "hello" none] (GenState.initial Unit)) ∧
    (registerMsg wOpts (runRegOps wOpts [RegOp.api "hello" none] (GenState.initial Unit))
        "hello" none).1 = 1 := by
  have h := registration_id_semantics wOpts [RegOp.api "hello" none] "hello" none none
    (runRegOps wOpts [RegOp.api "hello" none] (GenState.initial Unit)) rfl
  refine ⟨h.2.1 0 (by decide), ?_⟩
  have h2 := (h.2.2.1 (by decide)).1
  rw [h2]
  decide
